import Mathlib

/-!
Verification development for the `activity_report` management command
(`src/app/dashboard/management/commands/activity_report.py`).

The command gathers bounty and tip records for a date range, normalizes them
into flat activity rows, merges the two pre-sorted streams by `created_on`,
renders a CSV document with a fixed header, uploads it, and emails a link.

The embedding below is a shallow model of that file: console output
(`self.stdout.write`) is explicit state passing of a message log, the Django
ORM queries are filter-then-sort over an explicit database value, the S3
upload and mail transport are recorded as effects in the run result, and the
Python `TypeError` raised by `re.search(None)` is modelled by `Option`.
-/

namespace ActivityReport

/-- Console message style (`self.style.SUCCESS` / `self.style.WARNING`). -/
inductive Style where
  | success : Style
  | warning : Style
deriving Repr, DecidableEq

/-- The operator console: the sequence of messages written with
`self.stdout.write`, modelled as explicit state. -/
structure Console where
  messages : List (Style × String)
deriving Repr, DecidableEq

/-- `self.stdout.write(self.style.<st>(text))`. -/
def Console.write (c : Console) (st : Style) (text : String) : Console :=
  ⟨c.messages ++ [(st, text)]⟩

/-! ### The regular expression `github.com/[\w-]+/([\w-]+)`

`GITHUB_REPO_PATTERN = re.compile('github.com/[\w-]+/([\w-]+)')`, used via
`.search` (leftmost match anywhere in the string).  The file runs under
Python 2 with byte strings, so `\w` is `[A-Za-z0-9_]`.  The `.` in
`github.com` is an unescaped wildcard matching any character except a
newline.  Because `/` is not a `[\w-]` character, greedy matching of the
owner segment never needs backtracking: maximal munch is exact. -/

/-- `\w` for ASCII patterns: letters, digits and underscore. -/
def isWordChar (c : Char) : Bool :=
  (('a' ≤ c && c ≤ 'z') || ('A' ≤ c && c ≤ 'Z') || ('0' ≤ c && c ≤ '9') || c = '_')

/-- A character of the `[\w-]` classes in the pattern. -/
def isRepoChar (c : Char) : Bool :=
  isWordChar c || c = '-'

/-- Consume an exact literal from the head of the input, returning the rest. -/
def dropLiteral : List Char → List Char → Option (List Char)
  | [], cs => some cs
  | _ :: _, [] => none
  | l :: ls, c :: cs => if c = l then dropLiteral ls cs else none

/-- Try to match `github.com/[\w-]+/([\w-]+)` starting exactly at the head of
`cs`; on success return the characters captured by the group. -/
def matchRepoAt (cs : List Char) : Option (List Char) := do
  let r1 ← dropLiteral ['g', 'i', 't', 'h', 'u', 'b'] cs
  match r1 with
  | [] => none
  | dot :: r2 =>
    if dot = '\n' then none
    else
      let r3 ← dropLiteral ['c', 'o', 'm', '/'] r2
      let seg1 := r3.takeWhile isRepoChar
      if seg1.isEmpty then none
      else
        match r3.drop seg1.length with
        | '/' :: r4 =>
          let seg2 := r4.takeWhile isRepoChar
          if seg2.isEmpty then none else some seg2
        | _ => none

/-- `re.search`: try the pattern at each start position, leftmost first. -/
def searchRepo : List Char → Option (List Char)
  | [] => none
  | c :: cs =>
    match matchRepoAt (c :: cs) with
    | some g => some g
    | none => searchRepo cs

/-- The warning written when the pattern does not match. -/
def warningMsg (url : String) : String :=
  "WARNING: malformed github url: " ++ url ++ ", using value as is"

/-- `Command.extract_github_repo`: return the captured repository segment, or
the input unchanged plus a console warning when the pattern does not match. -/
def extract_github_repo (url : String) (c : Console) : String × Console :=
  match searchRepo url.data with
  | some g => (⟨g⟩, c)
  | none => (url, c.write .warning (warningMsg url))

/-! ### Raw domain records

Only the attributes the command reads are modelled.  Timestamps are points
on an abstract linear timeline (`Nat`); decimal amounts are `Int`; the
method results `get_natural_value()`, `value_in_eth`, `value_in_usdt` are
stored fields since the command treats them as read-only attributes.
`github_url` is nullable in the store, hence `Option String`. -/

structure Bounty where
  id : Nat
  network : String
  current_bounty : Bool
  web3_created : Nat
  modified_on : Nat
  natural_value : Int
  token_name : String
  value_in_eth : Int
  value_in_usdt : Int
  bounty_owner_address : String
  claimeee_address : String
  github_url : Option String
  bounty_owner_github_username : Option String
  claimee_github_username : Option String
  status : String
deriving Repr, DecidableEq

structure Tip where
  id : Nat
  network : String
  created_on : Nat
  modified_on : Nat
  natural_value : Int
  tokenName : String
  value_in_eth : Int
  value_in_usdt : Int
  github_url : Option String
  from_email : String
  status : String
deriving Repr, DecidableEq

/-- The normalized flat row: the dictionary built by `format_bounty` /
`format_tip`, with one field per CSV column. -/
structure ActivityRecord where
  type : String
  created_on : Nat
  last_activity : Nat
  amount : Int
  denomination : String
  amount_eth : Int
  amount_usdt : Int
  from_address : String
  claimee_address : String
  repo : String
  from_username : String
  claimee_github_username : String
  status : String
  comments : String
deriving Repr, DecidableEq

/-- Python truthiness of an optional string: `None` and `''` are falsy. -/
def truthy : Option String → Bool
  | none => false
  | some s => !s.isEmpty

/-- `Command.format_bounty`.  It passes `bounty.github_url` to
`extract_github_repo` unconditionally; `re.search(None)` raises `TypeError`,
modelled as `none` (the run aborts). -/
def format_bounty (b : Bounty) (c : Console) : Option (ActivityRecord × Console) :=
  match b.github_url with
  | none => none
  | some url =>
    let rc := extract_github_repo url c
    some ({ type := "bounty"
            created_on := b.web3_created
            last_activity := b.modified_on
            amount := b.natural_value
            denomination := b.token_name
            amount_eth := b.value_in_eth
            amount_usdt := b.value_in_usdt
            from_address := b.bounty_owner_address
            claimee_address := b.claimeee_address
            repo := rc.1
            from_username := b.bounty_owner_github_username.getD ""
            claimee_github_username := b.claimee_github_username.getD ""
            status := b.status
            comments := "" }, rc.2)

/-- `Command.format_tip`.  `repo` is extracted only when `tip.github_url` is
truthy, otherwise it is the empty string. -/
def format_tip (t : Tip) (c : Console) : ActivityRecord × Console :=
  let rc := if truthy t.github_url then extract_github_repo (t.github_url.getD "") c else ("", c)
  ({ type := "tip"
     created_on := t.created_on
     last_activity := t.modified_on
     amount := t.natural_value
     denomination := t.tokenName
     amount_eth := t.value_in_eth
     amount_usdt := t.value_in_usdt
     from_address := ""
     claimee_address := ""
     repo := rc.1
     from_username := t.from_email
     claimee_github_username := ""
     status := t.status
     comments := "" }, rc.2)

/-- Modelled from the spec: `itermerge` is imported from `app.utils`, whose
source file is not part of this snapshot.  The spec describes it as a
streaming two-pointer merge of two sequences, each sorted ascending by a key
function, advancing whichever head has the smaller key and, on a tie,
emitting the head of the first sequence before the second (stable with
first-sequence precedence). -/
def itermerge {α : Type} {κ : Type} [LinearOrder κ] (key : α → κ) :
    List α → List α → List α
  | [], ys => ys
  | x :: xs, [] => x :: xs
  | x :: xs, y :: ys =>
    if key x ≤ key y then x :: itermerge key xs (y :: ys)
    else y :: itermerge key (x :: xs) ys

/-! ### Dates and argument parsing

`valid_date` is `datetime.datetime.strptime(v, '%Y/%m/%d')` wrapped to raise
`argparse.ArgumentTypeError`.  CPython's `_strptime` compiles the format to
the regex `(\d\d\d\d)/(1[0-2]|0[1-9]|[1-9])/(3[01]|[12]\d|0[1-9]|[1-9])`,
tried with alternatives in that order, rejects unconverted trailing data,
and then `datetime(year, month, day)` rejects out-of-range days and year 0.
A two-character month or day alternative is always followed by a digit, so
regex backtracking into a shorter alternative can never be followed by the
required literal `/` (or the end check): first-match alternation below is
exact. -/

structure Date where
  year : Nat
  month : Nat
  day : Nat
deriving Repr, DecidableEq

def digitVal (c : Char) : Nat := c.toNat - '0'.toNat

/-- `%Y`: exactly four digits. -/
def parseYear : List Char → Option (Nat × List Char)
  | a :: b :: c :: d :: rest =>
    if a.isDigit && b.isDigit && c.isDigit && d.isDigit then
      some (((digitVal a * 10 + digitVal b) * 10 + digitVal c) * 10 + digitVal d, rest)
    else none
  | _ => none

/-- `%m`: `1[0-2]|0[1-9]|[1-9]`, alternatives in order. -/
def parseMonth : List Char → Option (Nat × List Char)
  | [] => none
  | [c1] => if '1' ≤ c1 && c1 ≤ '9' then some (digitVal c1, []) else none
  | c1 :: c2 :: rest =>
    if c1 = '1' && ('0' ≤ c2 && c2 ≤ '2') then some (10 + digitVal c2, rest)
    else if c1 = '0' && ('1' ≤ c2 && c2 ≤ '9') then some (digitVal c2, rest)
    else if '1' ≤ c1 && c1 ≤ '9' then some (digitVal c1, c2 :: rest)
    else none

/-- `%d`: `3[01]|[12]\d|0[1-9]|[1-9]`, alternatives in order. -/
def parseDay : List Char → Option (Nat × List Char)
  | [] => none
  | [c1] => if '1' ≤ c1 && c1 ≤ '9' then some (digitVal c1, []) else none
  | c1 :: c2 :: rest =>
    if c1 = '3' && (c2 = '0' || c2 = '1') then some (30 + digitVal c2, rest)
    else if (c1 = '1' || c1 = '2') && c2.isDigit then
      some (digitVal c1 * 10 + digitVal c2, rest)
    else if c1 = '0' && ('1' ≤ c2 && c2 ≤ '9') then some (digitVal c2, rest)
    else if '1' ≤ c1 && c1 ≤ '9' then some (digitVal c1, c2 :: rest)
    else none

def isLeap (y : Nat) : Bool := y % 4 = 0 && (y % 100 ≠ 0 || y % 400 = 0)

def daysInMonth (y m : Nat) : Nat :=
  if m = 2 then (if isLeap y then 29 else 28)
  else if m = 4 || m = 6 || m = 9 || m = 11 then 30
  else 31

/-- `valid_date`: parse `YYYY/MM/DD` or fail with the
`argparse.ArgumentTypeError` message. -/
def valid_date (s : String) : Except String Date :=
  let bad : Except String Date := .error (s ++ " is not a date in YYYY/MM/DD format")
  match parseYear s.data with
  | none => bad
  | some (y, r1) =>
    match r1 with
    | '/' :: r2 =>
      match parseMonth r2 with
      | none => bad
      | some (m, r3) =>
        match r3 with
        | '/' :: r4 =>
          match parseDay r4 with
          | some (d, []) =>
            if 1 ≤ y && d ≤ daysInMonth y m then .ok ⟨y, m, d⟩ else bad
          | _ => bad
        | _ => bad
    | _ => bad

/-- Left-pad a numeral with zeros to the given width. -/
def padNat (width n : Nat) : String :=
  let s := toString n
  ⟨List.replicate (width - s.length) '0'⟩ ++ s

/-- `strftime('%Y-%m-%d')`. -/
def Date.hyphenated (d : Date) : String :=
  padNat 4 d.year ++ "-" ++ padNat 2 d.month ++ "-" ++ padNat 2 d.day

/-- The point on the record timeline corresponding to midnight of a date:
an order-embedding of calendar dates into the abstract `Nat` timeline used
for `web3_created` / `created_on` timestamps. -/
def Date.stamp (d : Date) : Nat :=
  (d.year * 372 + (d.month - 1) * 31 + (d.day - 1)) * 86400

/-! ### The store queries -/

/-- The data store the Django ORM queries run against. -/
structure Database where
  bounties : List Bounty
  tips : List Tip
deriving Repr, DecidableEq

/-- The parsed command-line options. -/
structure Options where
  start_date : Date
  end_date : Date
deriving Repr, DecidableEq

/-- The filter of the bounty query: `network='mainnet'`,
`current_bounty=True`, `web3_created__gte=start`, `web3_created__lte=end`. -/
def bountyPred (opts : Options) (b : Bounty) : Bool :=
  b.network = "mainnet" && b.current_bounty &&
    opts.start_date.stamp ≤ b.web3_created && b.web3_created ≤ opts.end_date.stamp

/-- The ordering of `.order_by('web3_created', 'id')` on bounties. -/
def bountyLe (b1 b2 : Bounty) : Bool :=
  decide (b1.web3_created < b2.web3_created ∨
    (b1.web3_created = b2.web3_created ∧ b1.id ≤ b2.id))

/-- `Bounty.objects.filter(...).order_by('web3_created', 'id')`. -/
def bountyQuery (db : Database) (opts : Options) : List Bounty :=
  (db.bounties.filter (bountyPred opts)).mergeSort bountyLe

/-- The filter of the tip query: `network='mainnet'`,
`created_on__gte=start`, `created_on__lte=end`. -/
def tipPred (opts : Options) (t : Tip) : Bool :=
  t.network = "mainnet" &&
    opts.start_date.stamp ≤ t.created_on && t.created_on ≤ opts.end_date.stamp

/-- The ordering of `.order_by('created_on', 'id')` on tips. -/
def tipLe (t1 t2 : Tip) : Bool :=
  decide (t1.created_on < t2.created_on ∨
    (t1.created_on = t2.created_on ∧ t1.id ≤ t2.id))

/-- `Tip.objects.filter(...).order_by('created_on', 'id')`. -/
def tipQuery (db : Database) (opts : Options) : List Tip :=
  (db.tips.filter (tipPred opts)).mergeSort tipLe

/-! ### Formatting the query results

`imap(self.format_bounty, bounties)` / `imap(self.format_tip, tips)` with the
console state threaded through; a `TypeError` from any bounty aborts the
whole run. -/

def formatBounties : List Bounty → Console → Option (List ActivityRecord × Console)
  | [], c => some ([], c)
  | b :: bs, c => do
    let rc ← format_bounty b c
    let rest ← formatBounties bs rc.2
    some (rc.1 :: rest.1, rest.2)

def formatTips : List Tip → Console → List ActivityRecord × Console
  | [], c => ([], c)
  | t :: ts, c =>
    let rc := format_tip t c
    let rest := formatTips ts rc.2
    (rc.1 :: rest.1, rest.2)

/-! ### Rendering, publishing, notifying -/

/-- The `fieldnames` passed to `csv.DictWriter`. -/
def FIELDNAMES : List String :=
  ["type", "created_on", "last_activity", "amount", "denomination", "amount_eth",
   "amount_usdt", "from_address", "claimee_address", "repo", "from_username",
   "claimee_github_username", "status", "comments"]

/-- One CSV data row: the record's values in `fieldnames` order. -/
def renderRow (r : ActivityRecord) : List String :=
  [r.type, toString r.created_on, toString r.last_activity, toString r.amount,
   r.denomination, toString r.amount_eth, toString r.amount_usdt, r.from_address,
   r.claimee_address, r.repo, r.from_username, r.claimee_github_username,
   r.status, r.comments]

/-- Ambient configuration and environment: `settings.CONTACT_EMAIL`, the
wall-clock string `str(datetime.datetime.now())`, and the S3 URL generation
(`key.generate_url`) as a function of the object name. -/
structure Settings where
  contact_email : String
  now : String
  presign : String → String

/-- One `send_mail(...)` call with its arguments. -/
structure Email where
  from_email : String
  to_email : String
  subject : String
  body : String
  html : String
  add_bcc : Bool
deriving Repr, DecidableEq

/-- The observable outcome of one run of `Command.handle`: the rendered
document (rows of cells, header first), the uploads made to blob storage,
the emails sent, and the final console. -/
structure RunResult where
  document : List (List String)
  uploads : List (String × List (List String))
  emails : List Email
  console : Console
deriving Repr, DecidableEq

/-- The generated object name
`activity_report_<start>_<end>_generated_on_<now>.csv`. -/
def reportFilename (opts : Options) (st : Settings) : String :=
  "activity_report_" ++ opts.start_date.hyphenated ++ "_" ++ opts.end_date.hyphenated ++
    "_generated_on_" ++ st.now ++ ".csv"

def successMsg (opts : Options) (st : Settings) : String :=
  "Sent activity report from " ++ opts.start_date.hyphenated ++ " to " ++
    opts.end_date.hyphenated ++ " to " ++ st.contact_email

def noActivityMsg (opts : Options) : String :=
  "No activity from " ++ opts.start_date.hyphenated ++ " to " ++
    opts.end_date.hyphenated ++ " to report"

/-- `Command.handle`.  `none` models an uncaught exception aborting the run
(a `TypeError` from `format_bounty` on a `None` URL). -/
def handle (db : Database) (opts : Options) (st : Settings) (c : Console) :
    Option RunResult := do
  let bounties := bountyQuery db opts
  let tips := tipQuery db opts
  let fb ← formatBounties bounties c
  let ft := formatTips tips fb.2
  let merged := itermerge (fun x => x.created_on) fb.1 ft.1
  let document := FIELDNAMES :: merged.map renderRow
  if merged.isEmpty then
    some { document := document
           uploads := []
           emails := []
           console := ft.2.write .warning (noActivityMsg opts) }
  else
    let subject := "Gitcoin Activity report from " ++ opts.start_date.hyphenated ++
      " to " ++ opts.end_date.hyphenated
    let filename := reportFilename opts st
    let url := st.presign filename
    some { document := document
           uploads := [(filename, document)]
           emails := [{ from_email := st.contact_email
                        to_email := st.contact_email
                        subject := subject
                        body := ""
                        html := "<a href=\"" ++ url ++ "\">" ++ url ++ "</a>"
                        add_bcc := false }]
           console := ft.2.write .success (successMsg opts st) }

/-- The whole invocation: argparse converts both positional arguments with
`valid_date` (raising a usage error before `handle` runs), then `handle`
executes with an empty console. -/
def run_command (startArg endArg : String) (db : Database) (st : Settings) :
    Except String (Option RunResult) :=
  match valid_date startArg with
  | .error e => .error e
  | .ok sd =>
    match valid_date endArg with
    | .error e => .error e
    | .ok ed => .ok (handle db ⟨sd, ed⟩ st ⟨[]⟩)

/-! ### Concrete sample values used to instantiate the theorems -/

def sampleOptions : Options := ⟨⟨2018, 1, 1⟩, ⟨2018, 1, 31⟩⟩

def sampleSettings : Settings :=
  { contact_email := "ops@gitcoin.co"
    now := "2018-03-01 12:00:00"
    presign := fun name => "https://s3.example/" ++ name }

def emptyDb : Database := ⟨[], []⟩

def bountyRow : ActivityRecord :=
  { type := "bounty", created_on := 5, last_activity := 6, amount := 2
    denomination := "ETH", amount_eth := 2, amount_usdt := 10
    from_address := "0xa", claimee_address := "0xb", repo := "web"
    from_username := "alice", claimee_github_username := "bob"
    status := "submitted", comments := "" }

def tipRow : ActivityRecord :=
  { type := "tip", created_on := 5, last_activity := 7, amount := 1
    denomination := "ETH", amount_eth := 1, amount_usdt := 5
    from_address := "", claimee_address := "", repo := ""
    from_username := "tipper@example.com", claimee_github_username := ""
    status := "out", comments := "" }

def earlyTipRow : ActivityRecord :=
  { tipRow with created_on := 3, last_activity := 4 }

def nullUrlBounty : Bounty :=
  { id := 1, network := "mainnet", current_bounty := true
    web3_created := Date.stamp ⟨2018, 1, 15⟩, modified_on := Date.stamp ⟨2018, 1, 16⟩
    natural_value := 1, token_name := "ETH", value_in_eth := 1, value_in_usdt := 5
    bounty_owner_address := "0xa", claimeee_address := "0xb"
    github_url := none, bounty_owner_github_username := some "alice"
    claimee_github_username := none, status := "open" }

def webUrlBounty : Bounty :=
  { nullUrlBounty with id := 2, github_url := some "https://github.com/gitcoinco/web" }

def nullUrlTip : Tip :=
  { id := 3, network := "mainnet", created_on := Date.stamp ⟨2018, 1, 10⟩
    modified_on := Date.stamp ⟨2018, 1, 11⟩, natural_value := 3, tokenName := "ETH"
    value_in_eth := 3, value_in_usdt := 15, github_url := none
    from_email := "tipper@example.com", status := "out" }

def nullUrlDb : Database := ⟨[nullUrlBounty], []⟩

/-- The run result of a no-activity run started from an empty console. -/
def emptyRunResult : RunResult :=
  { document := [FIELDNAMES], uploads := [], emails := []
    console := ⟨[(.warning, noActivityMsg sampleOptions)]⟩ }

/-! ### Lemmas about `itermerge` -/

section MergeLemmas

variable {α : Type} {κ : Type} [LinearOrder κ]

theorem itermerge_cons_cons (key : α → κ) (x y : α) (xs ys : List α) :
    itermerge key (x :: xs) (y :: ys) =
      if key x ≤ key y then x :: itermerge key xs (y :: ys)
      else y :: itermerge key (x :: xs) ys := by
  rw [itermerge]

theorem itermerge_eq_merge (key : α → κ) (xs ys : List α) :
    itermerge key xs ys = List.merge xs ys (fun a b => decide (key a ≤ key b)) := by
  induction xs generalizing ys with
  | nil => cases ys <;> simp [itermerge, List.merge]
  | cons x xs ih =>
    induction ys with
    | nil => simp [itermerge, List.merge]
    | cons y ys ih2 =>
      rw [itermerge_cons_cons, List.merge]
      by_cases h : key x ≤ key y
      · simp [h, ih]
      · simp [h, ih2]

theorem itermerge_perm (key : α → κ) (xs ys : List α) :
    List.Perm (itermerge key xs ys) (xs ++ ys) := by
  rw [itermerge_eq_merge]
  exact List.merge_perm_append _

theorem itermerge_length (key : α → κ) (xs ys : List α) :
    (itermerge key xs ys).length = xs.length + ys.length := by
  rw [(itermerge_perm key xs ys).length_eq, List.length_append]

theorem itermerge_sorted (key : α → κ) {xs ys : List α}
    (hx : xs.Pairwise (fun a b => key a ≤ key b))
    (hy : ys.Pairwise (fun a b => key a ≤ key b)) :
    (itermerge key xs ys).Pairwise (fun a b => key a ≤ key b) := by
  rw [itermerge_eq_merge]
  have h := @List.sorted_merge _ (fun a b => decide (key a ≤ key b))
    (fun a b c hab hbc => by
      simp only [decide_eq_true_eq] at *
      exact le_trans hab hbc)
    (fun a b => by
      simp only [Bool.or_eq_true, decide_eq_true_eq]
      exact le_total (key a) (key b))
    xs ys
    (hx.imp (fun h => decide_eq_true h))
    (hy.imp (fun h => decide_eq_true h))
  exact h.imp (fun h => of_decide_eq_true h)

theorem itermerge_tie_break (key : α → κ) (a b : α) :
    ∀ (xs ys : List α), xs.Pairwise (fun u v => key u ≤ key v) →
      ys.Pairwise (fun u v => key u ≤ key v) → a ∈ xs → b ∈ ys → key a = key b →
      ∃ (i j : Nat), i < j ∧ (itermerge key xs ys)[i]? = some a ∧
        (itermerge key xs ys)[j]? = some b := by
  intro xs
  induction xs with
  | nil => intro ys _ _ ha _ _; exact absurd ha (List.not_mem_nil a)
  | cons x xs ih =>
    intro ys
    induction ys with
    | nil => intro _ _ _ hb _; exact absurd hb (List.not_mem_nil b)
    | cons y ys ih2 =>
      intro hx hy ha hb hk
      by_cases hle : key x ≤ key y
      · rcases List.mem_cons.1 ha with rfl | ha'
        · have hbm : b ∈ itermerge key xs (y :: ys) :=
            (itermerge_perm key xs (y :: ys)).mem_iff.2 (List.mem_append.2 (Or.inr hb))
          obtain ⟨j, hj⟩ := List.mem_iff_getElem?.1 hbm
          refine ⟨0, j + 1, Nat.succ_pos j, ?_, ?_⟩
          · rw [itermerge_cons_cons, if_pos hle]
            exact List.getElem?_cons_zero
          · rw [itermerge_cons_cons, if_pos hle, List.getElem?_cons_succ]
            exact hj
        · obtain ⟨i, j, hij, hi, hj⟩ := ih (y :: ys) hx.of_cons hy ha' hb hk
          refine ⟨i + 1, j + 1, Nat.succ_lt_succ hij, ?_, ?_⟩
          · rw [itermerge_cons_cons, if_pos hle, List.getElem?_cons_succ]; exact hi
          · rw [itermerge_cons_cons, if_pos hle, List.getElem?_cons_succ]; exact hj
      · rcases List.mem_cons.1 hb with rfl | hb'
        · have hxa : key x ≤ key a := by
            rcases List.mem_cons.1 ha with rfl | ha'
            · exact le_refl _
            · exact (List.pairwise_cons.1 hx).1 a ha'
          exact absurd (hk ▸ hxa) hle
        · obtain ⟨i, j, hij, hi, hj⟩ := ih2 hx hy.of_cons ha hb' hk
          refine ⟨i + 1, j + 1, Nat.succ_lt_succ hij, ?_, ?_⟩
          · rw [itermerge_cons_cons, if_neg hle, List.getElem?_cons_succ]; exact hi
          · rw [itermerge_cons_cons, if_neg hle, List.getElem?_cons_succ]; exact hj

end MergeLemmas

/-! ### Claim theorems -/

/-- C1: for every pair of input sequences S1 (formatted bounties) and S2
(formatted tips), each sorted ascending by the record's `created_on`, the
sequence produced by `itermerge` with that key is sorted ascending by
`created_on`, is a permutation of S1 followed by S2, and has length
`length S1 + length S2`. -/
theorem merged_sorted_perm_length (S1 S2 : List ActivityRecord)
    (h1 : S1.Pairwise (fun a b => a.created_on ≤ b.created_on))
    (h2 : S2.Pairwise (fun a b => a.created_on ≤ b.created_on)) :
    (itermerge (fun r => r.created_on) S1 S2).Pairwise
        (fun a b => a.created_on ≤ b.created_on) ∧
      List.Perm (itermerge (fun r => r.created_on) S1 S2) (S1 ++ S2) ∧
      (itermerge (fun r => r.created_on) S1 S2).length = S1.length + S2.length :=
  ⟨itermerge_sorted (fun r : ActivityRecord => r.created_on) h1 h2,
   itermerge_perm (fun r : ActivityRecord => r.created_on) S1 S2,
   itermerge_length (fun r : ActivityRecord => r.created_on) S1 S2⟩

theorem merged_sorted_perm_length_witness :
    (itermerge (fun r => r.created_on) [bountyRow] [earlyTipRow, tipRow]).Pairwise
        (fun a b => a.created_on ≤ b.created_on) ∧
      List.Perm (itermerge (fun r => r.created_on) [bountyRow] [earlyTipRow, tipRow])
        ([bountyRow] ++ [earlyTipRow, tipRow]) ∧
      (itermerge (fun r => r.created_on) [bountyRow] [earlyTipRow, tipRow]).length =
        [bountyRow].length + [earlyTipRow, tipRow].length :=
  merged_sorted_perm_length [bountyRow] [earlyTipRow, tipRow] (by decide) (by decide)

/-- C2: for every element `a` of the first merge input (a formatted bounty)
and every element `b` of the second (a formatted tip) with equal `created_on`
keys, `a` appears at a strictly smaller index than `b` in the merged output
(stable merge, first-sequence precedence).  As in C1, each input is sorted
ascending by `created_on`. -/
theorem merged_tie_break (S1 S2 : List ActivityRecord) (a b : ActivityRecord)
    (h1 : S1.Pairwise (fun u v => u.created_on ≤ v.created_on))
    (h2 : S2.Pairwise (fun u v => u.created_on ≤ v.created_on))
    (ha : a ∈ S1) (hb : b ∈ S2) (hk : a.created_on = b.created_on) :
    ∃ (i j : Nat), i < j ∧
      (itermerge (fun r => r.created_on) S1 S2)[i]? = some a ∧
      (itermerge (fun r => r.created_on) S1 S2)[j]? = some b :=
  itermerge_tie_break (fun r : ActivityRecord => r.created_on) a b S1 S2 h1 h2 ha hb hk

theorem merged_tie_break_witness :
    ∃ (i j : Nat), i < j ∧
      (itermerge (fun r => r.created_on) [bountyRow] [tipRow])[i]? = some bountyRow ∧
      (itermerge (fun r => r.created_on) [bountyRow] [tipRow])[j]? = some tipRow :=
  merged_tie_break [bountyRow] [tipRow] bountyRow tipRow (by decide) (by decide)
    (by decide) (by decide) (by decide)

/-- The value returned by `extract_github_repo` does not depend on the
console state. -/
theorem extract_fst_const (u : String) (c c' : Console) :
    (extract_github_repo u c).1 = (extract_github_repo u c').1 := by
  cases h : searchRepo u.data <;> simp [extract_github_repo, h]

/-- C4: `extract_github_repo` maps `"https://github.com/gitcoinco/web"` to
`"web"` with no warning; it returns `"https://example.com/x"` unchanged with
a warning; and on every URL it either matches (console untouched) or falls
back to the input unchanged while appending exactly the warning — it never
fails. -/
theorem extract_github_repo_spec (c : Console) (url : String) :
    extract_github_repo "https://github.com/gitcoinco/web" c = ("web", c) ∧
      extract_github_repo "https://example.com/x" c =
        ("https://example.com/x", c.write .warning (warningMsg "https://example.com/x")) ∧
      ((extract_github_repo url c).2 = c ∨
        ((extract_github_repo url c).1 = url ∧
          (extract_github_repo url c).2 = c.write .warning (warningMsg url))) := by
  refine ⟨?_, ?_, ?_⟩
  · have h : searchRepo "https://github.com/gitcoinco/web".data = some "web".data := by
      decide
    simp [extract_github_repo, h]
  · have h : searchRepo "https://example.com/x".data = none := by decide
    simp [extract_github_repo, h]
  · cases h : searchRepo url.data with
    | some g => exact Or.inl (by simp [extract_github_repo, h])
    | none => exact Or.inr ⟨by simp [extract_github_repo, h], by simp [extract_github_repo, h]⟩

/-- C9: normalization is deterministic and idempotent — the `ActivityRecord`
produced by `format_bounty` (respectively `format_tip`) is a function of the
raw record alone, so a second application from any console state (in
particular the state left by the first application) yields the identical
record. -/
theorem normalization_deterministic (b : Bounty) (t : Tip) (c c' : Console) :
    Option.map Prod.fst (format_bounty b c) = Option.map Prod.fst (format_bounty b c') ∧
      (format_tip t c).1 = (format_tip t c').1 := by
  constructor
  · cases hb : b.github_url with
    | none => simp [format_bounty, hb]
    | some url => simp [format_bounty, hb, extract_fst_const url c c']
  · by_cases ht : truthy t.github_url
    · simp [format_tip, ht, extract_fst_const (t.github_url.getD "") c c']
    · simp [format_tip, ht]

/-- Formatting a list of bounties aborts when any member has no URL. -/
theorem formatBounties_eq_none (b : Bounty) (hb : b.github_url = none) :
    ∀ (l : List Bounty), b ∈ l → ∀ (c : Console), formatBounties l c = none := by
  intro l
  induction l with
  | nil => intro h; exact absurd h (List.not_mem_nil b)
  | cons b' l ih =>
    intro h c
    rcases List.mem_cons.1 h with rfl | h'
    · simp [formatBounties, format_bounty, hb]
    · cases hfb : format_bounty b' c with
      | none => simp [formatBounties, hfb]
      | some rc => simp [formatBounties, hfb, ih h' rc.2]

/-- Evaluation of the bounty query on the one-bounty sample store. -/
theorem bountyQuery_nullUrlDb : bountyQuery nullUrlDb sampleOptions = [nullUrlBounty] := by
  have h : nullUrlDb.bounties.filter (bountyPred sampleOptions) = [nullUrlBounty] := by
    decide
  simp [bountyQuery, h]

/-- C10: `format_bounty` passes `bounty.github_url` to the regex search
unconditionally, so it fails (`TypeError`) exactly when the URL is absent,
and a run whose bounty query contains such a bounty aborts; `format_tip`
instead maps an absent or empty URL to an empty `repo` without invoking
extraction (the console is untouched), and `format_bounty` succeeds whenever
the URL is a string. -/
theorem format_bounty_url_precondition (db : Database) (opts : Options) (st : Settings)
    (c c' c2 : Console) (b b2 : Bounty) (t : Tip) (url2 : String)
    (hmem : b ∈ bountyQuery db opts) (hburl : b.github_url = none)
    (hb2 : b2.github_url = some url2)
    (ht : t.github_url = none ∨ t.github_url = some "") :
    format_bounty b c' = none ∧ (format_bounty b2 c2).isSome = true ∧
      (format_tip t c').1.repo = "" ∧ (format_tip t c').2 = c' ∧
      handle db opts st c = none := by
  have htr : truthy t.github_url = false := by
    rcases ht with h | h <;> simp [truthy, h, String.isEmpty]
  refine ⟨by simp [format_bounty, hburl], by simp [format_bounty, hb2],
    by simp [format_tip, htr], by simp [format_tip, htr], ?_⟩
  have hnone := formatBounties_eq_none b hburl (bountyQuery db opts) hmem c
  simp [handle, hnone]

theorem format_bounty_url_precondition_witness :
    format_bounty nullUrlBounty ⟨[]⟩ = none ∧
      (format_bounty webUrlBounty ⟨[]⟩).isSome = true ∧
      (format_tip nullUrlTip ⟨[]⟩).1.repo = "" ∧ (format_tip nullUrlTip ⟨[]⟩).2 = ⟨[]⟩ ∧
      handle nullUrlDb sampleOptions sampleSettings ⟨[]⟩ = none :=
  format_bounty_url_precondition nullUrlDb sampleOptions sampleSettings ⟨[]⟩ ⟨[]⟩ ⟨[]⟩
    nullUrlBounty webUrlBounty nullUrlTip "https://github.com/gitcoinco/web"
    (by rw [bountyQuery_nullUrlDb]; exact List.mem_singleton.2 rfl) rfl rfl (Or.inl rfl)

/-- Evaluation of the queries on the empty store. -/
theorem bountyQuery_emptyDb : bountyQuery emptyDb sampleOptions = [] := by
  simp [bountyQuery, emptyDb]

theorem tipQuery_emptyDb : tipQuery emptyDb sampleOptions = [] := by
  simp [tipQuery, emptyDb]

/-- C3: when the date-range queries return no bounties and no tips, the run
produces a document consisting of the header row only, performs no upload,
sends no email, and writes the "no activity" warning to the console. -/
theorem handle_no_activity (db : Database) (opts : Options) (st : Settings) (c : Console)
    (hB : bountyQuery db opts = []) (hT : tipQuery db opts = []) :
    handle db opts st c =
      some { document := [FIELDNAMES], uploads := [], emails := []
             console := c.write .warning (noActivityMsg opts) } := by
  simp [handle, hB, hT, formatBounties, formatTips, itermerge]

theorem handle_no_activity_witness :
    handle emptyDb sampleOptions sampleSettings ⟨[]⟩ =
      some { document := [FIELDNAMES], uploads := [], emails := []
             console := Console.write ⟨[]⟩ .warning (noActivityMsg sampleOptions) } :=
  handle_no_activity emptyDb sampleOptions sampleSettings ⟨[]⟩
    bountyQuery_emptyDb tipQuery_emptyDb

/-- Full evaluation of a run on the empty store. -/
theorem handle_empty_eval :
    handle emptyDb sampleOptions sampleSettings ⟨[]⟩ = some emptyRunResult := by
  simp [handle, bountyQuery_emptyDb, tipQuery_emptyDb, formatBounties, formatTips,
    itermerge, emptyRunResult, Console.write]

/-- C5: every completed run's document begins with the header row consisting
of exactly the 14 fields in their fixed order, regardless of how many data
rows follow (including zero). -/
theorem document_header (db : Database) (opts : Options) (st : Settings) (c : Console)
    (res : RunResult) (h : handle db opts st c = some res) :
    res.document.head? = some ["type", "created_on", "last_activity", "amount",
        "denomination", "amount_eth", "amount_usdt", "from_address", "claimee_address",
        "repo", "from_username", "claimee_github_username", "status", "comments"] ∧
      (["type", "created_on", "last_activity", "amount", "denomination", "amount_eth",
        "amount_usdt", "from_address", "claimee_address", "repo", "from_username",
        "claimee_github_username", "status", "comments"] : List String).length = 14 := by
  cases hfb : formatBounties (bountyQuery db opts) c with
  | none => simp [handle, hfb] at h
  | some fb =>
    by_cases hm : itermerge (fun x : ActivityRecord => x.created_on) fb.1
        (formatTips (tipQuery db opts) fb.2).1 = []
    · simp [handle, hfb, hm] at h
      subst h
      exact ⟨rfl, rfl⟩
    · simp [handle, hfb, hm] at h
      subst h
      exact ⟨rfl, rfl⟩

theorem document_header_witness :
    emptyRunResult.document.head? = some ["type", "created_on", "last_activity", "amount",
        "denomination", "amount_eth", "amount_usdt", "from_address", "claimee_address",
        "repo", "from_username", "claimee_github_username", "status", "comments"] ∧
      (["type", "created_on", "last_activity", "amount", "denomination", "amount_eth",
        "amount_usdt", "from_address", "claimee_address", "repo", "from_username",
        "claimee_github_username", "status", "comments"] : List String).length = 14 :=
  document_header emptyDb sampleOptions sampleSettings ⟨[]⟩ emptyRunResult
    handle_empty_eval

/-- C6: an email is sent if and only if at least one data row was written
(the document has a second row); when sent, sender and recipient are both the
configured operator address, the subject is exactly
`Gitcoin Activity report from <start> to <end>` with hyphenated dates, the
plain body is empty and the HTML body is a single anchor tag whose href and
link text are both the published URL. -/
theorem email_sent_iff (db : Database) (opts : Options) (st : Settings) (c : Console)
    (res : RunResult) (h : handle db opts st c = some res) :
    (res.emails ≠ [] ↔ 2 ≤ res.document.length) ∧
      ∀ e ∈ res.emails,
        e.from_email = st.contact_email ∧ e.to_email = st.contact_email ∧
        e.subject = "Gitcoin Activity report from " ++ opts.start_date.hyphenated ++
          " to " ++ opts.end_date.hyphenated ∧
        e.body = "" ∧ e.add_bcc = false ∧
        e.html = "<a href=\"" ++ st.presign (reportFilename opts st) ++ "\">" ++
          st.presign (reportFilename opts st) ++ "</a>" := by
  cases hfb : formatBounties (bountyQuery db opts) c with
  | none => simp [handle, hfb] at h
  | some fb =>
    by_cases hm : itermerge (fun x : ActivityRecord => x.created_on) fb.1
        (formatTips (tipQuery db opts) fb.2).1 = []
    · simp [handle, hfb, hm] at h
      subst h
      constructor
      · simp
      · intro e he
        simp at he
    · simp [handle, hfb, hm] at h
      subst h
      constructor
      · simp only [List.length_cons, List.length_map]
        constructor
        · intro _
          have hlen : 0 < (itermerge (fun x : ActivityRecord => x.created_on) fb.1
              (formatTips (tipQuery db opts) fb.2).1).length := List.length_pos.2 hm
          omega
        · intro _
          simp
      · intro e he
        simp at he
        subst he
        exact ⟨rfl, rfl, rfl, rfl, rfl, rfl⟩

theorem email_sent_iff_witness :
    (emptyRunResult.emails ≠ [] ↔ 2 ≤ emptyRunResult.document.length) ∧
      ∀ e ∈ emptyRunResult.emails,
        e.from_email = sampleSettings.contact_email ∧
        e.to_email = sampleSettings.contact_email ∧
        e.subject = "Gitcoin Activity report from " ++
          sampleOptions.start_date.hyphenated ++ " to " ++
          sampleOptions.end_date.hyphenated ∧
        e.body = "" ∧ e.add_bcc = false ∧
        e.html = "<a href=\"" ++
          sampleSettings.presign (reportFilename sampleOptions sampleSettings) ++ "\">" ++
          sampleSettings.presign (reportFilename sampleOptions sampleSettings) ++ "</a>" :=
  email_sent_iff emptyDb sampleOptions sampleSettings ⟨[]⟩ emptyRunResult
    handle_empty_eval

/-- C7: when either positional date argument fails `valid_date`, the
invocation fails with the usage error synchronously during argument parsing;
the outcome is independent of the store and of the environment, so no store
query or other I/O happens. -/
theorem usage_error_before_io (a b : String) (db db' : Database) (st st' : Settings)
    (m : String)
    (h : valid_date a = .error m ∨
      (valid_date b = .error m ∧ ∃ d, valid_date a = .ok d)) :
    run_command a b db st = .error m ∧
      run_command a b db st = run_command a b db' st' := by
  rcases h with h | ⟨hb, d, hd⟩
  · constructor <;> simp [run_command, h]
  · constructor <;> simp [run_command, hd, hb]

theorem usage_error_before_io_witness :
    run_command "2018-01-01" "2018/01/01" emptyDb sampleSettings =
        .error "2018-01-01 is not a date in YYYY/MM/DD format" ∧
      run_command "2018-01-01" "2018/01/01" emptyDb sampleSettings =
        run_command "2018-01-01" "2018/01/01" nullUrlDb sampleSettings :=
  usage_error_before_io "2018-01-01" "2018/01/01" emptyDb nullUrlDb
    sampleSettings sampleSettings "2018-01-01 is not a date in YYYY/MM/DD format"
    (Or.inl rfl)

/-- C8: both store queries keep only `mainnet` records whose relevant
timestamp lies in the inclusive `[start_date, end_date]` range (additionally
only current bounties), return them ordered ascending by that timestamp and
then by record id, and contain exactly the matching store records. -/
theorem query_contract (db : Database) (opts : Options) :
    (∀ b ∈ bountyQuery db opts, b.network = "mainnet" ∧ b.current_bounty = true ∧
        opts.start_date.stamp ≤ b.web3_created ∧ b.web3_created ≤ opts.end_date.stamp) ∧
      (bountyQuery db opts).Pairwise (fun b1 b2 => b1.web3_created < b2.web3_created ∨
        (b1.web3_created = b2.web3_created ∧ b1.id ≤ b2.id)) ∧
      List.Perm (bountyQuery db opts) (db.bounties.filter (bountyPred opts)) ∧
      (∀ t ∈ tipQuery db opts, t.network = "mainnet" ∧
        opts.start_date.stamp ≤ t.created_on ∧ t.created_on ≤ opts.end_date.stamp) ∧
      (tipQuery db opts).Pairwise (fun t1 t2 => t1.created_on < t2.created_on ∨
        (t1.created_on = t2.created_on ∧ t1.id ≤ t2.id)) ∧
      List.Perm (tipQuery db opts) (db.tips.filter (tipPred opts)) := by
  refine ⟨?_, ?_, ?_, ?_, ?_, ?_⟩
  · intro b hb
    have hmem : b ∈ db.bounties.filter (bountyPred opts) := by
      simpa [bountyQuery] using hb
    have hp : bountyPred opts b = true := (List.mem_filter.1 hmem).2
    simp only [bountyPred, Bool.and_eq_true, decide_eq_true_eq] at hp
    exact ⟨hp.1.1.1, hp.1.1.2, hp.1.2, hp.2⟩
  · have htrans : ∀ (x y z : Bounty), bountyLe x y → bountyLe y z → bountyLe x z := by
      intro x y z hxy hyz
      simp only [bountyLe, decide_eq_true_eq] at *
      omega
    have htotal : ∀ (x y : Bounty), bountyLe x y || bountyLe y x := by
      intro x y
      simp only [bountyLe, Bool.or_eq_true, decide_eq_true_eq]
      omega
    have hs := List.sorted_mergeSort htrans htotal (db.bounties.filter (bountyPred opts))
    unfold bountyQuery
    exact hs.imp (fun h => of_decide_eq_true h)
  · simpa [bountyQuery] using
      List.mergeSort_perm (db.bounties.filter (bountyPred opts)) bountyLe
  · intro t ht
    have hmem : t ∈ db.tips.filter (tipPred opts) := by
      simpa [tipQuery] using ht
    have hp : tipPred opts t = true := (List.mem_filter.1 hmem).2
    simp only [tipPred, Bool.and_eq_true, decide_eq_true_eq] at hp
    exact ⟨hp.1.1, hp.1.2, hp.2⟩
  · have htrans : ∀ (x y z : Tip), tipLe x y → tipLe y z → tipLe x z := by
      intro x y z hxy hyz
      simp only [tipLe, decide_eq_true_eq] at *
      omega
    have htotal : ∀ (x y : Tip), tipLe x y || tipLe y x := by
      intro x y
      simp only [tipLe, Bool.or_eq_true, decide_eq_true_eq]
      omega
    have hs := List.sorted_mergeSort htrans htotal (db.tips.filter (tipPred opts))
    unfold tipQuery
    exact hs.imp (fun h => of_decide_eq_true h)
  · simpa [tipQuery] using
      List.mergeSort_perm (db.tips.filter (tipPred opts)) tipLe

end ActivityReport
